import Mathlib

/-!
Shallow embedding of the layered configuration resolution engine of
fulcrumproject/commons (package `config`): the generic `Builder`
state machine (`New`, `LoadFile`, `WithEnv`, `Build`), the ancestor
environment-file locator (`loadEnvFromAncestors`), the reflective
struct-to-environment mapper (`loadEnvToStruct`, embedded here as
`loadField`/`loadFields` over a universe of record shapes), and the
`logLevel` helper of `config/commons.go`.

Go machine integers are embedded as `Int`/`Nat` with explicit
two's-complement truncation where the code narrows; fallible
operations return `Option`/`Except`.  External collaborators
(`time.ParseDuration`, `strconv.ParseFloat`, the go-playground
validator, the filesystem and the JSON decoder) are parameters of the
corresponding operations; everything the claims quantify over
(`strconv.ParseInt`/`ParseUint`/`ParseBool`, `strings.Split`,
`strings.TrimSpace`, the godotenv no-overwrite insertion) is embedded
concretely from its documented behavior.
-/

namespace FulcrumCommons

/-- Go error values as produced by this package: either a leaf error
message or a `fmt.Errorf("...: %w", err)` wrapping of an inner error. -/
inductive GoErr where
  | base (msg : String)
  | wrap (msg : String) (inner : GoErr)
deriving DecidableEq, Repr

/-- The process environment snapshot: an insertion-ordered list of
`KEY=VALUE` bindings.  Lookup returns the first binding of a key. -/
abbrev Env := List (String × String)

/-- First-match lookup in the environment snapshot. -/
def envLookup : Env → String → Option String
  | [], _ => none
  | (k, v) :: rest, key => if key = k then some v else envLookup rest key

/-- `os.Getenv`: the bound value, or `""` when the key is absent. -/
def getenv (e : Env) (key : String) : String :=
  (envLookup e key).getD ""

/-- `os.Setenv` as performed by godotenv with `overload = false`:
insert the binding only when the key is not already present. -/
def setenvIfAbsent (e : Env) (kv : String × String) : Env :=
  if (envLookup e kv.1).isSome then e else e ++ [kv]

/-- godotenv parsing of a file body: later occurrences of a key in the
same file overwrite earlier ones in the parsed map. -/
def parseDotenv (entries : List (String × String)) : List (String × String) :=
  entries.foldl (fun m kv => (m.filter (fun p => p.1 ≠ kv.1)) ++ [kv]) []

/-- `godotenv.Load` on a successfully parsed file: each parsed binding
is inserted into the snapshot only if its key is absent. -/
def dotenvLoad (e : Env) (entries : List (String × String)) : Env :=
  (parseDotenv entries).foldl setenvIfAbsent e

/-- Go `unicode.IsSpace` (the White_Space property). -/
def goIsSpace (c : Char) : Bool :=
  let n := c.toNat
  (9 ≤ n && n ≤ 13) || n = 32 || n = 0x85 || n = 0xA0 || n = 0x1680 ||
  (0x2000 ≤ n && n ≤ 0x200A) || n = 0x2028 || n = 0x2029 || n = 0x202F ||
  n = 0x205F || n = 0x3000

/-- Go `strings.TrimSpace`: drop leading and trailing white space. -/
def goTrimSpace (s : String) : String :=
  String.mk (((s.data.dropWhile goIsSpace).reverse.dropWhile goIsSpace).reverse)

/-- Go `strings.Split` with separator `","` on the underlying
character list: one piece per comma-separated segment, empty pieces
preserved; the empty input yields one empty piece. -/
def splitOnComma : List Char → List (List Char)
  | [] => [[]]
  | c :: rest =>
    let r := splitOnComma rest
    if c = ',' then [] :: r
    else
      match r with
      | [] => [[c]]
      | g :: gs => (c :: g) :: gs

/-- Go `strings.Split(s, ",")`. -/
def goSplitComma (s : String) : List String :=
  (splitOnComma s.data).map String.mk

/-- Decimal digits to their value; `none` when the list is empty or
contains a non-digit (base-10 `strconv` syntax, no underscores). -/
def digitsToNat? (cs : List Char) : Option Nat :=
  match cs with
  | [] => none
  | _ =>
    cs.foldl
      (fun acc c =>
        match acc with
        | none => none
        | some n => if c.isDigit then some (n * 10 + (c.toNat - 48)) else none)
      (some 0)

/-- Go `strconv.ParseUint(s, 10, 64)`: digits only (no sign), value at
most `2^64 - 1`; otherwise an error (`none`). -/
def goParseUint64 (s : String) : Option Nat :=
  match digitsToNat? s.data with
  | none => none
  | some n => if n ≤ 2 ^ 64 - 1 then some n else none

/-- Go `strconv.ParseInt(s, 10, 64)`: optional sign, then digits,
range `[-2^63, 2^63 - 1]`; otherwise an error (`none`). -/
def goParseInt64 (s : String) : Option Int :=
  let (neg, rest) :=
    match s.data with
    | '+' :: cs => (false, cs)
    | '-' :: cs => (true, cs)
    | cs => (false, cs)
  match digitsToNat? rest with
  | none => none
  | some n =>
    if neg then
      if n ≤ 2 ^ 63 then some (-(n : Int)) else none
    else
      if n ≤ 2 ^ 63 - 1 then some (n : Int) else none

/-- Go `strconv.ParseBool`. -/
def goParseBool (s : String) : Option Bool :=
  if s = "1" ∨ s = "t" ∨ s = "T" ∨ s = "true" ∨ s = "TRUE" ∨ s = "True" then some true
  else if s = "0" ∨ s = "f" ∨ s = "F" ∨ s = "false" ∨ s = "FALSE" ∨ s = "False" then some false
  else none

/-- Two's-complement narrowing of an `int64` value to a `w`-bit signed
integer, as performed by `reflect.Value.SetInt` on a narrower field. -/
def truncInt (w : Nat) (x : Int) : Int :=
  let m := x % (2 ^ w : Nat)
  if m < ((2 ^ (w - 1) : Nat) : Int) then m else m - (2 ^ w : Nat)

/-- Modular narrowing of a `uint64` value to a `w`-bit unsigned
integer, as performed by `reflect.Value.SetUint` on a narrower field. -/
def truncUint (w : Nat) (x : Nat) : Nat :=
  x % 2 ^ w

mutual
/-- The value stored in one field of a target record, covering the
kinds `loadEnvToStruct` switches on: strings, signed integers of a
declared bit width, unsigned integers of a declared bit width,
floating point (with representation parameter `F`), booleans,
`time.Duration` (an `int64` nanosecond count), `[]string` slices,
nested struct values, and every other kind (left untouched by the
mapper).  `F` abstracts the float representation, since floating
point is not embedded. -/
inductive FieldVal (F : Type) where
  | strV (s : String)
  | intV (w : Nat) (v : Int)
  | uintV (w : Nat) (v : Nat)
  | floatV (v : F)
  | boolV (b : Bool)
  | durationV (ns : Int)
  | strListV (xs : List String)
  | structV (fields : List (Field F))
  | otherV

/-- One struct field as seen by reflection: its Go name, its struct
tags (an association list from tag name to tag value, as read by
`StructTag.Lookup`), whether `CanSet` holds (exported), and its
current value. -/
inductive Field (F : Type) where
  | mk (name : String) (tags : List (String × String)) (settable : Bool) (val : FieldVal F)
end

/-- A target record is its ordered list of fields. -/
abbrev Record (F : Type) := List (Field F)

/-- The Go field name. -/
def Field.name {F : Type} : Field F → String
  | .mk n _ _ _ => n

/-- The field's struct tags. -/
def Field.tags {F : Type} : Field F → List (String × String)
  | .mk _ t _ _ => t

/-- Whether `reflect.Value.CanSet` holds for the field. -/
def Field.settable {F : Type} : Field F → Bool
  | .mk _ _ s _ => s

/-- The field's current value. -/
def Field.val {F : Type} : Field F → FieldVal F
  | .mk _ _ _ v => v

/-- `StructTag.Lookup`: the first binding of a tag name, if any. -/
def tagLookup : List (String × String) → String → Option String
  | [], _ => none
  | (k, v) :: rest, key => if key = k then some v else tagLookup rest key

/-- The coercions `loadEnvToStruct` delegates to external packages:
`time.ParseDuration` (nanoseconds on success) and
`strconv.ParseFloat(s, 64)` into the abstract representation `F`. -/
structure Coercers (F : Type) where
  parseDurationFn : String → Option Int
  parseFloatFn : String → Option F

/-- The result of coercing one non-empty environment value onto one
field value, per the `switch fieldValue.Kind()` of `loadEnvToStruct`:
the (possibly updated) value and the coercion error, if any.  Struct
kinds and unsupported kinds fall through the switch untouched. -/
def coerceEnvValue {F : Type} (C : Coercers F) (envVar envValue : String) :
    FieldVal F → FieldVal F × Option GoErr
  | .strV _ => (.strV envValue, none)
  | .intV w v =>
    match goParseInt64 envValue with
    | none => (.intV w v, some (.base ("invalid integer value for " ++ envVar)))
    | some x => (.intV w (truncInt w x), none)
  | .durationV v =>
    match C.parseDurationFn envValue with
    | none => (.durationV v, some (.base ("invalid duration value for " ++ envVar)))
    | some d => (.durationV d, none)
  | .uintV w v =>
    match goParseUint64 envValue with
    | none => (.uintV w v, some (.base ("invalid unsigned integer value for " ++ envVar)))
    | some x => (.uintV w (truncUint w x), none)
  | .floatV v =>
    match C.parseFloatFn envValue with
    | none => (.floatV v, some (.base ("invalid float value for " ++ envVar)))
    | some x => (.floatV x, none)
  | .boolV b =>
    match goParseBool envValue with
    | none => (.boolV b, some (.base ("invalid boolean value for " ++ envVar)))
    | some x => (.boolV x, none)
  | .strListV _ =>
    (.strListV ((goSplitComma envValue).map goTrimSpace), none)
  | .structV fields => (.structV fields, none)
  | .otherV => (.otherV, none)

mutual
/-- One iteration of the field loop of `loadEnvToStruct`: skip
non-settable fields; recurse into struct-kind values first, wrapping
a nested failure with this field's name and aborting; then look up
the env tag, skip absent or empty tags and absent or empty
environment values, and otherwise coerce.  Returns the field after
the in-place mutations performed so far together with the error, if
any. -/
def loadField {F : Type} (C : Coercers F) (env : Env) (pre tagName : String) :
    Field F → Field F × Option GoErr
  | .mk name tags settable val =>
    if settable = false then (.mk name tags settable val, none)
    else
      match val with
      | .structV inner =>
        match loadFields C env pre tagName inner with
        | (inner2, some e) =>
          (.mk name tags settable (.structV inner2),
           some (.wrap ("error loading sub config field " ++ name) e))
        | (inner2, none) =>
          loadFieldEnv C env pre tagName name tags settable (.structV inner2)
      | v => loadFieldEnv C env pre tagName name tags settable v

/-- The tag lookup, emptiness checks and coercion for one field, after
any struct recursion has succeeded. -/
def loadFieldEnv {F : Type} (C : Coercers F) (env : Env) (pre tagName : String)
    (name : String) (tags : List (String × String)) (settable : Bool)
    (val : FieldVal F) : Field F × Option GoErr :=
  match tagLookup tags tagName with
  | none => (.mk name tags settable val, none)
  | some envVar =>
    if envVar = "" then (.mk name tags settable val, none)
    else
      let envValue := getenv env (pre ++ envVar)
      if envValue = "" then (.mk name tags settable val, none)
      else
        match coerceEnvValue C envVar envValue val with
        | (val2, e) => (.mk name tags settable val2, e)

/-- The field loop of `loadEnvToStruct`: process fields in
declaration order, returning at the first error; fields after the
failing one keep their values (the in-place mutation semantics of the
Go code). -/
def loadFields {F : Type} (C : Coercers F) (env : Env) (pre tagName : String) :
    List (Field F) → List (Field F) × Option GoErr
  | [] => ([], none)
  | f :: fs =>
    match loadField C env pre tagName f with
    | (f2, some e) => (f2 :: fs, some e)
    | (f2, none) =>
      match loadFields C env pre tagName fs with
      | (fs2, e) => (f2 :: fs2, e)
end

/-- `loadEnvToStruct(target, prefix, tag)` on the reflective view of
the target record: mutate the fields from the environment snapshot,
returning the record state after the pass and the first error. -/
def loadEnvToStruct {F : Type} (C : Coercers F) (env : Env) (pre tagName : String)
    (target : Record F) : Record F × Option GoErr :=
  loadFields C env pre tagName target

/-- A directory as its path components from the filesystem root; the
root itself is `[]`.  `filepath.Dir` is dropping the last component,
and the parent of the root is the root. -/
abbrev Dir := List String

/-- The filesystem as the ancestor locator observes it: for a
directory and a candidate file name, `none` means `os.Stat` fails
(no such file), `some none` means the file exists but
`godotenv.Load` fails (unreadable or malformed, loading nothing),
and `some (some entries)` means it loads with the given parsed
`KEY=VALUE` entries. -/
abbrev FileSys := Dir → String → Option (Option (List (String × String)))

/-- The directories visited by the walk of `loadEnvFromAncestors`:
the current directory, then each parent in turn; the loop breaks when
the parent of the current directory equals the current directory
(`filepath.Dir(dir) == dir`, i.e. the root). -/
def ancestors : Dir → List Dir
  | [] => [[]]
  | d :: ds =>
    (d :: ds) :: ancestors (d :: ds).dropLast
termination_by d => d.length
decreasing_by simp [List.length_dropLast]

/-- The inner candidate loop of `loadEnvFromAncestors` for one
directory: for each candidate name in caller order, if the file
exists and loads, insert its entries without overwriting. -/
def loadDirFiles (fsys : FileSys) (filesToTry : List String) (dir : Dir) (e : Env) : Env :=
  filesToTry.foldl
    (fun e name =>
      match fsys dir name with
      | none => e
      | some none => e
      | some (some entries) => dotenvLoad e entries)
    e

/-- The directory walk of `loadEnvFromAncestors` once the working
directory is known: fold the candidate loop over the visited
directories, nearest first. -/
def runLocator (fsys : FileSys) (filesToTry : List String) (d : Dir) (env : Env) : Env :=
  (ancestors d).foldl (fun e dir => loadDirFiles fsys filesToTry dir e) env

/-- `loadEnvFromAncestors(filesToTry...)`: fail exactly when
`os.Getwd` fails (returning its error verbatim), otherwise walk from
the working directory up to the root and return success; missing or
malformed candidate files are skipped inside `runLocator`. -/
def loadEnvFromAncestors (fsys : FileSys) (filesToTry : List String) (env : Env)
    (cwd : Except GoErr Dir) : Except GoErr Env :=
  match cwd with
  | .error e => .error e
  | .ok d => .ok (runLocator fsys filesToTry d env)

/-- The builder state: the target record, the latched terminal error,
and the environment options. -/
structure Builder (T : Type) where
  config : T
  err : Option GoErr
  envPrefix : String
  envTag : String
  envFiles : List String
deriving Repr

/-- A configuration option for `New`. -/
abbrev BuilderOption (T : Type) := Builder T → Builder T

/-- `WithEnvPrefix`: set the environment variable prefix. -/
def WithEnvPrefix {T : Type} (pre : String) : BuilderOption T :=
  fun b => { b with envPrefix := pre }

/-- `WithEnvTag`: set the struct tag name for environment variables. -/
def WithEnvTag {T : Type} (tag : String) : BuilderOption T :=
  fun b => { b with envTag := tag }

/-- `WithEnvFiles`: set the environment files to load. -/
def WithEnvFiles {T : Type} (files : List String) : BuilderOption T :=
  fun b => { b with envFiles := files }

/-- `New(defaultConfig, opts...)`: a clean builder seeded with the
default record, tag `"env"`, no files, empty prefix, with the options
applied in order. -/
def New {T : Type} (defaultConfig : T) (opts : List (BuilderOption T)) : Builder T :=
  opts.foldl (fun b opt => opt b)
    { config := defaultConfig, err := none, envPrefix := "", envTag := "env", envFiles := [] }

/-- `Builder.LoadFile(filepath)`: a no-op when poisoned or when the
path pointer is nil or points at the empty string; otherwise read the
file (`readFile` abstracts `os.ReadFile`) and unmarshal it onto the
record (`unmarshal` abstracts `json.Unmarshal`, returning the
overlaid record), latching a wrapped read or parse error. -/
def LoadFile {T : Type} (readFile : String → Except GoErr String)
    (unmarshal : String → T → Except GoErr T)
    (path : Option String) (b : Builder T) : Builder T :=
  match b.err with
  | some _ => b
  | none =>
    match path with
    | none => b
    | some p =>
      if p = "" then b
      else
        match readFile p with
        | .error e => { b with err := some (.wrap "failed to read config file" e) }
        | .ok data =>
          match unmarshal data b.config with
          | .error e => { b with err := some (.wrap "failed to parse config file" e) }
          | .ok cfg => { b with config := cfg }

/-- `Builder.WithEnv()`: a no-op when poisoned; otherwise run the
ancestor locator over the environment snapshot (state-passing for the
process-global environment), then the mapper over the record,
latching a wrapped error from either stage.  Returns the builder and
the updated snapshot. -/
def WithEnv {F : Type} (C : Coercers F) (fsys : FileSys) (cwd : Except GoErr Dir)
    (env : Env) (b : Builder (Record F)) : Builder (Record F) × Env :=
  match b.err with
  | some _ => (b, env)
  | none =>
    match loadEnvFromAncestors fsys b.envFiles env cwd with
    | .error e =>
      ({ b with err := some (.wrap "failed to load environment variables" e) }, env)
    | .ok env2 =>
      match loadEnvToStruct C env2 b.envPrefix b.envTag b.config with
      | (cfg2, some e) =>
        ({ b with config := cfg2,
                  err := some (.wrap "failed to override configuration from environment" e) },
         env2)
      | (cfg2, none) => ({ b with config := cfg2 }, env2)

/-- `Builder.Build()`: when poisoned, the zero value of `T` and the
latched error; when clean, run the validation capability (`validate`
abstracts `validator.New().Struct`) on the record, returning the zero
value and a wrapped validation error on failure, or the record and no
error on success.  The third component records the arguments the
validation capability was invoked on, in order. -/
def Build {T : Type} (zero : T) (validate : T → Option GoErr)
    (b : Builder T) : T × Option GoErr × List T :=
  match b.err with
  | some e => (zero, some e, [])
  | none =>
    match validate b.config with
    | some ve => (zero, some (.wrap "invalid configuration" ve), [b.config])
    | none => (b.config, none, [b.config])

/-- `slog.LevelError`. -/
def levelError : Int := 8

/-- `slog.LevelWarn`. -/
def levelWarn : Int := 4

/-- `slog.LevelInfo`. -/
def levelInfo : Int := 0

/-- `logLevel` of `config/commons.go`: the sequential `switch` over
the level name, defaulting to info for the empty string and for
every unknown name. -/
def logLevel (value : String) : Int :=
  if value = "silent" then 99
  else if value = "error" then levelError
  else if value = "warn" then levelWarn
  else if value = "info" ∨ value = "" then levelInfo
  else levelInfo

/-- The value a single candidate file contributes for a key: the
file's parsed binding of the key, when the file exists and loads. -/
def fileKeyValue (fsys : FileSys) (dir : Dir) (name k : String) : Option String :=
  match fsys dir name with
  | some (some entries) => envLookup (parseDotenv entries) k
  | _ => none

/-- The value contributed for a key by the first file, in the
directory-then-candidate iteration order of the locator, whose
loaded contents bind the key. -/
def firstDiscoveredValue (fsys : FileSys) (filesToTry : List String) (d : Dir)
    (k : String) : Option String :=
  (ancestors d).findSome? fun dir =>
    filesToTry.findSome? fun name => fileKeyValue fsys dir name k

/-- Coercers whose external parsers always fail, for concrete
instantiations. -/
def noCoercers : Coercers Unit :=
  { parseDurationFn := fun _ => none, parseFloatFn := fun _ => none }

/- ## Lemmas and claim theorems -/

/-- Right identity of `Option.or`. -/
theorem optionOrNone {α : Type} (o : Option α) : o.or none = o := by
  cases o <;> rfl

/-- Lookup distributes over appending a single binding. -/
theorem envLookup_append_single (e : Env) (k k2 v2 : String) :
    envLookup (e ++ [(k2, v2)]) k =
      (envLookup e k).or (if k = k2 then some v2 else none) := by
  induction e with
  | nil => simp [envLookup, Option.or]
  | cons kv rest ih =>
    obtain ⟨k1, v1⟩ := kv
    by_cases h : k = k1 <;> simp [envLookup, h, ih, Option.or]

/-- Lookup after a conditional insertion: the old binding wins; a new
binding appears only when the key was absent. -/
theorem envLookup_setenvIfAbsent (e : Env) (k : String) (kv : String × String) :
    envLookup (setenvIfAbsent e kv) k =
      (envLookup e k).or (if k = kv.1 then some kv.2 else none) := by
  obtain ⟨k2, v2⟩ := kv
  unfold setenvIfAbsent
  by_cases h2 : (envLookup e k2).isSome
  · simp only [h2, if_true]
    by_cases h : k = k2
    · subst h
      obtain ⟨v, hv⟩ := Option.isSome_iff_exists.mp h2
      simp [hv, Option.or]
    · cases hk : envLookup e k <;> simp [h, Option.or]
  · simp only [h2, if_false]
    exact envLookup_append_single e k k2 v2

/-- Lookup after folding conditional insertions over a binding list:
the old binding wins, else the first binding of the key in the list. -/
theorem envLookup_foldl_setenvIfAbsent (l : List (String × String)) (e : Env) (k : String) :
    envLookup (l.foldl setenvIfAbsent e) k = (envLookup e k).or (envLookup l k) := by
  induction l generalizing e with
  | nil => simp [envLookup, optionOrNone]
  | cons kv rest ih =>
    obtain ⟨k2, v2⟩ := kv
    rw [List.foldl_cons, ih, envLookup_setenvIfAbsent]
    by_cases h : k = k2
    · subst h
      cases hk : envLookup e k <;> simp [envLookup, Option.or]
    · cases hk : envLookup e k <;> simp [envLookup, h, Option.or]

/-- Lookup after loading one file with godotenv semantics. -/
theorem envLookup_dotenvLoad (e : Env) (entries : List (String × String)) (k : String) :
    envLookup (dotenvLoad e entries) k =
      (envLookup e k).or (envLookup (parseDotenv entries) k) :=
  envLookup_foldl_setenvIfAbsent (parseDotenv entries) e k

/-- Lookup after the candidate loop over one directory. -/
theorem envLookup_loadDirFiles (fsys : FileSys) (filesToTry : List String)
    (dir : Dir) (e : Env) (k : String) :
    envLookup (loadDirFiles fsys filesToTry dir e) k =
      (envLookup e k).or
        (filesToTry.findSome? fun name => fileKeyValue fsys dir name k) := by
  induction filesToTry generalizing e with
  | nil => simp [loadDirFiles, optionOrNone]
  | cons name rest ih =>
    unfold loadDirFiles at ih ⊢
    rw [List.foldl_cons, List.findSome?_cons]
    cases hf : fsys dir name with
    | none =>
      have hfk : fileKeyValue fsys dir name k = none := by simp [fileKeyValue, hf]
      simp only [hf, hfk]
      exact ih e
    | some o =>
      cases o with
      | none =>
        have hfk : fileKeyValue fsys dir name k = none := by simp [fileKeyValue, hf]
        simp only [hf, hfk]
        exact ih e
      | some entries =>
        have hfk : fileKeyValue fsys dir name k = envLookup (parseDotenv entries) k := by
          simp [fileKeyValue, hf]
        simp only [hf, hfk]
        rw [ih (dotenvLoad e entries), envLookup_dotenvLoad]
        cases hk : envLookup e k <;>
          cases hp : envLookup (parseDotenv entries) k <;> simp [Option.or]

/-- Lookup after the directory loop over any visit sequence. -/
theorem envLookup_foldl_dirs (fsys : FileSys) (filesToTry : List String)
    (ds : List Dir) (env : Env) (k : String) :
    envLookup (ds.foldl (fun e dir => loadDirFiles fsys filesToTry dir e) env) k =
      (envLookup env k).or
        (ds.findSome? fun dir =>
          filesToTry.findSome? fun name => fileKeyValue fsys dir name k) := by
  induction ds generalizing env with
  | nil => simp [optionOrNone]
  | cons dir rest ih =>
    rw [List.foldl_cons, List.findSome?_cons, ih, envLookup_loadDirFiles]
    cases hk : envLookup env k <;>
      cases hd : (filesToTry.findSome? fun name => fileKeyValue fsys dir name k) <;>
        simp [Option.or]

/-- The walk visits one directory per path component plus the root. -/
theorem ancestors_length (d : Dir) : (ancestors d).length = d.length + 1 := by
  induction d using ancestors.induct with
  | case1 => simp [ancestors]
  | case2 d ds ih =>
    rw [ancestors]
    simp only [List.length_cons]
    rw [ih]
    simp [List.length_dropLast]

/-- The walk is never empty: the working directory itself is visited. -/
theorem ancestors_ne_nil (d : Dir) : ancestors d ≠ [] := by
  cases d <;> simp [ancestors]

/-- The walk ends at the filesystem root, where the loop breaks
because the parent of the root is the root. -/
theorem ancestors_last (d : Dir) : (ancestors d).getLast? = some ([] : Dir) := by
  induction d using ancestors.induct with
  | case1 => simp [ancestors]
  | case2 d ds ih =>
    rw [ancestors, List.getLast?_cons, ih]
    simp [List.getLastD]

/-- C9: `loadEnvFromAncestors` returns an error if and only if the
working directory cannot be determined, in which case that error is
returned verbatim; for every working directory the walk terminates
after visiting each ancestor once, from the working directory down
to the filesystem root where the parent of the current directory
equals the current directory, and the locator returns success no
matter which candidate files are missing or malformed (the
filesystem and candidate list are arbitrary, including the empty
candidate list). -/
theorem locator_error_policy :
    (∀ (fsys : FileSys) (filesToTry : List String) (env : Env) (e : GoErr),
      loadEnvFromAncestors fsys filesToTry env (.error e) = .error e) ∧
    (∀ (fsys : FileSys) (filesToTry : List String) (env : Env) (d : Dir),
      loadEnvFromAncestors fsys filesToTry env (.ok d) =
        .ok (runLocator fsys filesToTry d env)) ∧
    (∀ d : Dir, (ancestors d).length = d.length + 1 ∧
      (ancestors d).getLast? = some ([] : Dir)) := by
  refine ⟨fun _ _ _ _ => rfl, fun _ _ _ _ => rfl, fun d => ⟨ancestors_length d, ancestors_last d⟩⟩

/-- C2: precedence law of the ancestor locator.  For every key, the
resolved snapshot binds the key to its value in the pre-existing
snapshot when present (discovered files never overwrite it), and
otherwise to the value contributed by the first file in the
directory-then-candidate iteration order (directories from the
working directory up to the root, candidates in caller order) whose
loaded contents bind the key. -/
theorem locator_precedence (fsys : FileSys) (filesToTry : List String)
    (env : Env) (d : Dir) (k : String) :
    loadEnvFromAncestors fsys filesToTry env (.ok d) =
      .ok (runLocator fsys filesToTry d env) ∧
    envLookup (runLocator fsys filesToTry d env) k =
      (envLookup env k).or (firstDiscoveredValue fsys filesToTry d k) := by
  exact ⟨rfl, envLookup_foldl_dirs fsys filesToTry (ancestors d) env k⟩

/-- C10: `logLevel` is total on strings: `silent`, `error` and `warn`
map to level 99, `slog.LevelError` and `slog.LevelWarn`; `info`, the
empty string and every other string map to `slog.LevelInfo`. -/
theorem logLevel_total :
    logLevel "silent" = 99 ∧ logLevel "error" = levelError ∧
    logLevel "warn" = levelWarn ∧ logLevel "info" = levelInfo ∧
    logLevel "" = levelInfo ∧
    ∀ s : String, s ≠ "silent" → s ≠ "error" → s ≠ "warn" → logLevel s = levelInfo := by
  refine ⟨rfl, rfl, rfl, rfl, rfl, fun s h1 h2 h3 => ?_⟩
  unfold logLevel
  rw [if_neg h1, if_neg h2, if_neg h3]
  split_ifs <;> rfl

/-- Witness for C10 at concrete inputs: the mapping on a listed name
and on an unknown name. -/
theorem logLevel_total_witness :
    logLevel "silent" = 99 ∧ logLevel "verbose" = levelInfo :=
  ⟨logLevel_total.1,
   logLevel_total.2.2.2.2.2 "verbose" (by decide) (by decide) (by decide)⟩

/-- C1: the poison latch.  In every builder state whose terminal
error is set, `LoadFile` with any path and any filesystem, and
`WithEnv` with any filesystem, working directory and environment
snapshot, return the same builder state unchanged (and `WithEnv`
leaves the snapshot unchanged), and `Build` returns the zero value
of the record type together with the originally recorded error,
invoking the validation capability zero times, so the original error
is never masked or replaced. -/
theorem builder_poison_latch {F : Type} (C : Coercers F) (fsys : FileSys)
    (cwd : Except GoErr Dir) (env : Env)
    (readFile : String → Except GoErr String)
    (unmarshal : String → Record F → Except GoErr (Record F))
    (path : Option String) (zero : Record F)
    (validate : Record F → Option GoErr)
    (b : Builder (Record F)) (e : GoErr) (h : b.err = some e) :
    LoadFile readFile unmarshal path b = b ∧
    WithEnv C fsys cwd env b = (b, env) ∧
    Build zero validate b = (zero, some e, []) := by
  refine ⟨?_, ?_, ?_⟩ <;> simp [LoadFile, WithEnv, Build, h]

/-- Witness for C1: a concretely poisoned builder is left unchanged
by `LoadFile` and `WithEnv`, and `Build` surfaces the original error
with the zero record. -/
theorem builder_poison_latch_witness :
    LoadFile (fun _ => .ok "x") (fun _ c => .ok c) (some "cfg.json")
        ({ config := [], err := some (.base "boom"), envPrefix := "P_",
           envTag := "env", envFiles := [".env"] } : Builder (Record Unit)) =
      { config := [], err := some (.base "boom"), envPrefix := "P_",
        envTag := "env", envFiles := [".env"] } ∧
    WithEnv noCoercers (fun _ _ => none) (.ok []) []
        { config := [], err := some (.base "boom"), envPrefix := "P_",
          envTag := "env", envFiles := [".env"] } =
      ({ config := [], err := some (.base "boom"), envPrefix := "P_",
         envTag := "env", envFiles := [".env"] }, []) ∧
    Build ([] : Record Unit) (fun _ => none)
        { config := [], err := some (.base "boom"), envPrefix := "P_",
          envTag := "env", envFiles := [".env"] } =
      ([], some (.base "boom"), []) :=
  builder_poison_latch noCoercers (fun _ _ => none) (.ok []) []
    (fun _ => .ok "x") (fun _ c => .ok c) (some "cfg.json") [] (fun _ => none)
    { config := [], err := some (.base "boom"), envPrefix := "P_",
      envTag := "env", envFiles := [".env"] } (.base "boom") rfl

/-- C3: the validation gate.  In a clean builder state, `Build`
invokes the validation capability exactly once, on the resolved
record; on validation failure it returns the zero value of the
record type and the validation error wrapped as an invalid
configuration error, and on success it returns the populated record
and no error. -/
theorem build_validation_gate {T : Type} (zero : T)
    (validate : T → Option GoErr) (b : Builder T) (h : b.err = none) :
    (Build zero validate b).2.2 = [b.config] ∧
    (∀ ve, validate b.config = some ve →
      Build zero validate b =
        (zero, some (.wrap "invalid configuration" ve), [b.config])) ∧
    (validate b.config = none →
      Build zero validate b = (b.config, none, [b.config])) := by
  unfold Build
  rw [h]
  cases hv : validate b.config with
  | none => exact ⟨rfl, fun ve hve => by simp [hv] at hve, fun _ => rfl⟩
  | some ve =>
    refine ⟨rfl, fun ve2 hve2 => ?_, fun hn => by simp [hv] at hn⟩
    cases hve2
    rfl

/-- Witness for C3: a concrete clean builder, one failing and one
passing validator, each invoked exactly once. -/
theorem build_validation_gate_witness :
    (Build 0 (fun n => if n = 5 then some (.base "bad") else none)
        ({ config := 5, err := none, envPrefix := "", envTag := "env",
           envFiles := [] } : Builder Nat)).2.2 = [5] ∧
    Build 0 (fun n => if n = 5 then some (.base "bad") else none)
        ({ config := 5, err := none, envPrefix := "", envTag := "env",
           envFiles := [] } : Builder Nat) =
      (0, some (.wrap "invalid configuration" (.base "bad")), [5]) ∧
    Build 0 (fun _ => none)
        ({ config := 5, err := none, envPrefix := "", envTag := "env",
           envFiles := [] } : Builder Nat) = (5, none, [5]) :=
  ⟨(build_validation_gate 0 (fun n => if n = 5 then some (.base "bad") else none)
      { config := 5, err := none, envPrefix := "", envTag := "env",
        envFiles := [] } rfl).1,
   (build_validation_gate 0 (fun n => if n = 5 then some (.base "bad") else none)
      { config := 5, err := none, envPrefix := "", envTag := "env",
        envFiles := [] } rfl).2.1 (.base "bad") rfl,
   (build_validation_gate 0 (fun _ => none)
      { config := 5, err := none, envPrefix := "", envTag := "env",
        envFiles := [] } rfl).2.2 rfl⟩

/-- C8: the file overlay.  On a clean builder, `LoadFile` with a nil
path or an empty-string path is a no-op that leaves the builder
clean and the record unchanged; a path whose read fails poisons the
chain with the read error wrapped as a failed-read error, and a path
whose contents fail to unmarshal poisons it with the parse error
wrapped as a failed-parse error — the two failures produce the same
poisoned state up to the wrapping error text. -/
theorem loadFile_overlay {T : Type} (readFile : String → Except GoErr String)
    (unmarshal : String → T → Except GoErr T) (b : Builder T)
    (h : b.err = none) :
    LoadFile readFile unmarshal none b = b ∧
    LoadFile readFile unmarshal (some "") b = b ∧
    (∀ p e, p ≠ "" → readFile p = .error e →
      LoadFile readFile unmarshal (some p) b =
        { b with err := some (.wrap "failed to read config file" e) }) ∧
    (∀ p data e, p ≠ "" → readFile p = .ok data →
      unmarshal data b.config = .error e →
      LoadFile readFile unmarshal (some p) b =
        { b with err := some (.wrap "failed to parse config file" e) }) := by
  refine ⟨by simp [LoadFile, h], by simp [LoadFile, h],
    fun p e hp hr => ?_, fun p data e hp hr hu => ?_⟩
  · simp [LoadFile, h, hp, hr]
  · simp [LoadFile, h, hp, hr, hu]

/-- Witness for C8: a concrete clean builder with a concrete
filesystem exercising the no-op, read-failure and parse-failure
paths. -/
theorem loadFile_overlay_witness :
    LoadFile (fun p => if p = "bad" then .error (.base "enoent") else .ok "data")
        (fun d (c : Nat) => if d = "data" then .error (.base "badjson") else .ok c)
        none ({ config := 7, err := none, envPrefix := "", envTag := "env",
                envFiles := [] } : Builder Nat) =
      { config := 7, err := none, envPrefix := "", envTag := "env", envFiles := [] } ∧
    LoadFile (fun p => if p = "bad" then .error (.base "enoent") else .ok "data")
        (fun d (c : Nat) => if d = "data" then .error (.base "badjson") else .ok c)
        (some "") { config := 7, err := none, envPrefix := "", envTag := "env",
                    envFiles := [] } =
      { config := 7, err := none, envPrefix := "", envTag := "env", envFiles := [] } ∧
    LoadFile (fun p => if p = "bad" then .error (.base "enoent") else .ok "data")
        (fun d (c : Nat) => if d = "data" then .error (.base "badjson") else .ok c)
        (some "bad") { config := 7, err := none, envPrefix := "", envTag := "env",
                       envFiles := [] } =
      { config := 7, err := some (.wrap "failed to read config file" (.base "enoent")),
        envPrefix := "", envTag := "env", envFiles := [] } ∧
    LoadFile (fun p => if p = "bad" then .error (.base "enoent") else .ok "data")
        (fun d (c : Nat) => if d = "data" then .error (.base "badjson") else .ok c)
        (some "cfg.json") { config := 7, err := none, envPrefix := "", envTag := "env",
                            envFiles := [] } =
      { config := 7, err := some (.wrap "failed to parse config file" (.base "badjson")),
        envPrefix := "", envTag := "env", envFiles := [] } := by
  have h := loadFile_overlay
    (fun p => if p = "bad" then .error (.base "enoent") else .ok "data")
    (fun d (c : Nat) => if d = "data" then .error (.base "badjson") else .ok c)
    { config := 7, err := none, envPrefix := "", envTag := "env", envFiles := [] }
    rfl
  exact ⟨h.1, h.2.1,
    h.2.2.1 "bad" (.base "enoent") (by decide) rfl,
    h.2.2.2 "cfg.json" "data" (.base "badjson") (by decide) rfl rfl⟩

/-- After the tag lookup, an absent or empty environment value leaves
the field value untouched and raises no error. -/
theorem loadFieldEnv_skip {F : Type} (C : Coercers F) (env : Env)
    (pre tagName name envVar : String) (tags : List (String × String))
    (settable : Bool) (val : FieldVal F)
    (htag : tagLookup tags tagName = some envVar)
    (hval : getenv env (pre ++ envVar) = "") :
    loadFieldEnv C env pre tagName name tags settable val =
      (.mk name tags settable val, none) := by
  unfold loadFieldEnv
  rw [htag]
  by_cases he : envVar = ""
  · simp [he]
  · simp [he, hval]

/-- Counterexample to C5 as stated: an annotated field of record
kind (`Outer`, tag `OUTER`) whose own environment variable is absent
is nevertheless modified by the mapper, because recursion into its
nested fields happens independently of the field's own annotation:
its nested field `Inner` is overlaid from `INNER`.  The resolved
`Outer` value differs from its pre-overlay value. -/
theorem emptiness_no_clobber_cex :
    loadEnvToStruct noCoercers [("INNER", "new")] "" "env"
        [ .mk "Outer" [("env", "OUTER")] true
            (.structV [ .mk "Inner" [("env", "INNER")] true (.strV "old") ]) ] =
      ([ .mk "Outer" [("env", "OUTER")] true
           (.structV [ .mk "Inner" [("env", "INNER")] true (.strV "new") ]) ], none) ∧
    envLookup [("INNER", "new")] "OUTER" = none ∧
    (FieldVal.structV [ .mk "Inner" [("env", "INNER")] true (.strV "new") ] : FieldVal Unit) ≠
      .structV [ .mk "Inner" [("env", "INNER")] true (.strV "old") ] := by
  refine ⟨rfl, rfl, fun h => ?_⟩
  simp only [FieldVal.structV.injEq, List.cons.injEq, Field.mk.injEq,
    FieldVal.strV.injEq] at h
  exact absurd h.1.2.2.2 (by decide)

/-- C5 as amended: for every annotated field whose kind is not a
nested record, an absent or empty environment value leaves the field
completely untouched — the resolved value equals the
pre-environment-overlay value and no error is raised; nested-record
fields are exempt, since recursion into their annotated sub-fields
happens regardless of the record field's own variable. -/
theorem emptiness_no_clobber {F : Type} (C : Coercers F) (env : Env)
    (pre tagName name envVar : String) (tags : List (String × String))
    (settable : Bool) (val : FieldVal F)
    (hns : ∀ inner, val ≠ FieldVal.structV inner)
    (htag : tagLookup tags tagName = some envVar)
    (hval : getenv env (pre ++ envVar) = "") :
    loadField C env pre tagName (.mk name tags settable val) =
      (.mk name tags settable val, none) := by
  cases settable with
  | false => cases val <;> simp [loadField]
  | true =>
    cases val with
    | structV inner => exact absurd rfl (hns inner)
    | strV s =>
      simp only [loadField, Bool.true_eq_false, if_false]
      exact loadFieldEnv_skip C env pre tagName name envVar tags true _ htag hval
    | intV w v =>
      simp only [loadField, Bool.true_eq_false, if_false]
      exact loadFieldEnv_skip C env pre tagName name envVar tags true _ htag hval
    | uintV w v =>
      simp only [loadField, Bool.true_eq_false, if_false]
      exact loadFieldEnv_skip C env pre tagName name envVar tags true _ htag hval
    | floatV v =>
      simp only [loadField, Bool.true_eq_false, if_false]
      exact loadFieldEnv_skip C env pre tagName name envVar tags true _ htag hval
    | boolV bv =>
      simp only [loadField, Bool.true_eq_false, if_false]
      exact loadFieldEnv_skip C env pre tagName name envVar tags true _ htag hval
    | durationV ns =>
      simp only [loadField, Bool.true_eq_false, if_false]
      exact loadFieldEnv_skip C env pre tagName name envVar tags true _ htag hval
    | strListV xs =>
      simp only [loadField, Bool.true_eq_false, if_false]
      exact loadFieldEnv_skip C env pre tagName name envVar tags true _ htag hval
    | otherV =>
      simp only [loadField, Bool.true_eq_false, if_false]
      exact loadFieldEnv_skip C env pre tagName name envVar tags true _ htag hval

/-- Witness for C5 as amended: a string field with its variable
bound to the empty string keeps its default. -/
theorem emptiness_no_clobber_witness :
    loadField noCoercers [("NAME", "")] "" "env"
        (.mk "Name" [("env", "NAME")] true (.strV "test-app")) =
      (.mk "Name" [("env", "NAME")] true (.strV "test-app"), none) :=
  emptiness_no_clobber noCoercers [("NAME", "")] "" "env" "Name" "NAME"
    [("env", "NAME")] true (.strV "test-app")
    (fun inner h => by cases h) rfl rfl

/-- Counterexample to C4 as stated: an 8-bit signed field bound to
the literal `300`, which is out of range at the field's declared
width, does not produce a coercion error — the mapper parses at
64-bit width and `SetInt` silently truncates, storing `44`. -/
theorem int_width_cex :
    loadEnvToStruct noCoercers [("PORT", "300")] "" "env"
        [ .mk "Port" [("env", "PORT")] true (.intV 8 0) ] =
      ([ .mk "Port" [("env", "PORT")] true (.intV 8 44) ], none) ∧
    goParseInt64 "300" = some 300 ∧
    ¬ ((-128 : Int) ≤ 300 ∧ (300 : Int) ≤ 127) := by
  exact ⟨rfl, rfl, by decide⟩

/-- C4 as amended: for signed and unsigned integer fields bound to a
non-empty environment value, the mapper parses the literal in base
10 at 64-bit width regardless of the field's declared width; on
success it assigns the parsed value narrowed to the declared width
by two's-complement (signed) or modular (unsigned) truncation, and
it returns a coercion error naming the environment variable exactly
for the literals that are invalid as 64-bit base-10 integers. -/
theorem int_coercion {F : Type} (C : Coercers F) (env : Env)
    (pre tagName name envVar v : String) (tags : List (String × String))
    (w : Nat) (oldI : Int) (oldU : Nat)
    (htag : tagLookup tags tagName = some envVar) (hne : envVar ≠ "")
    (hval : getenv env (pre ++ envVar) = v) (hv : v ≠ "") :
    (∀ x, goParseInt64 v = some x →
      loadField C env pre tagName (.mk name tags true (.intV w oldI)) =
        (.mk name tags true (.intV w (truncInt w x)), none)) ∧
    (goParseInt64 v = none →
      loadField C env pre tagName (.mk name tags true (.intV w oldI)) =
        (.mk name tags true (.intV w oldI),
         some (.base ("invalid integer value for " ++ envVar)))) ∧
    (∀ x, goParseUint64 v = some x →
      loadField C env pre tagName (.mk name tags true (.uintV w oldU)) =
        (.mk name tags true (.uintV w (truncUint w x)), none)) ∧
    (goParseUint64 v = none →
      loadField C env pre tagName (.mk name tags true (.uintV w oldU)) =
        (.mk name tags true (.uintV w oldU),
         some (.base ("invalid unsigned integer value for " ++ envVar)))) := by
  refine ⟨fun x hx => ?_, fun hx => ?_, fun x hx => ?_, fun hx => ?_⟩ <;>
    simp [loadField, loadFieldEnv, coerceEnvValue, htag, hne, hval, hv, hx]

/-- Witness for C4 as amended: an 8-bit signed field bound to `300`
stores the truncation `44`; bound to `not-an-int` it errors naming
the variable; an 8-bit unsigned field bound to `300` stores `44`;
bound to `-1` it errors. -/
theorem int_coercion_witness :
    loadField noCoercers [("PORT", "300")] "" "env"
        (.mk "Port" [("env", "PORT")] true (.intV 8 0)) =
      (.mk "Port" [("env", "PORT")] true (.intV 8 44), none) ∧
    loadField noCoercers [("PORT", "not-an-int")] "" "env"
        (.mk "Port" [("env", "PORT")] true (.intV 8 0)) =
      (.mk "Port" [("env", "PORT")] true (.intV 8 0),
       some (.base "invalid integer value for PORT")) ∧
    loadField noCoercers [("MAX_CONNS", "300")] "" "env"
        (.mk "MaxConns" [("env", "MAX_CONNS")] true (.uintV 8 0)) =
      (.mk "MaxConns" [("env", "MAX_CONNS")] true (.uintV 8 44), none) ∧
    loadField noCoercers [("MAX_CONNS", "-1")] "" "env"
        (.mk "MaxConns" [("env", "MAX_CONNS")] true (.uintV 8 0)) =
      (.mk "MaxConns" [("env", "MAX_CONNS")] true (.uintV 8 0),
       some (.base "invalid unsigned integer value for MAX_CONNS")) := by
  have h1 := int_coercion noCoercers [("PORT", "300")] "" "env" "Port" "PORT"
    "300" [("env", "PORT")] 8 0 0 rfl (by decide) rfl (by decide)
  have h2 := int_coercion noCoercers [("PORT", "not-an-int")] "" "env" "Port" "PORT"
    "not-an-int" [("env", "PORT")] 8 0 0 rfl (by decide) rfl (by decide)
  have h3 := int_coercion noCoercers [("MAX_CONNS", "300")] "" "env" "MaxConns"
    "MAX_CONNS" "300" [("env", "MAX_CONNS")] 8 0 0 rfl (by decide) rfl (by decide)
  have h4 := int_coercion noCoercers [("MAX_CONNS", "-1")] "" "env" "MaxConns"
    "MAX_CONNS" "-1" [("env", "MAX_CONNS")] 8 0 0 rfl (by decide) rfl (by decide)
  exact ⟨h1.1 300 rfl, h2.2.1 rfl, h3.2.2.1 300 rfl, h4.2.2.2 rfl⟩

/-- C6: string-list coercion.  For every string-slice field bound
to a non-empty environment value, the mapper sets the field to
exactly the comma-split of the raw value with surrounding white
space trimmed from every element, preserving element order and empty
elements; in particular `tag1, tag2 ,tag3` yields
`[tag1, tag2, tag3]` and `tag1,,tag3` yields `[tag1, , tag3]` with
the internal empty element preserved. -/
theorem strlist_coercion {F : Type} (C : Coercers F) (env : Env)
    (pre tagName name envVar v : String) (tags : List (String × String))
    (old : List String)
    (htag : tagLookup tags tagName = some envVar) (hne : envVar ≠ "")
    (hval : getenv env (pre ++ envVar) = v) (hv : v ≠ "") :
    loadField C env pre tagName (.mk name tags true (.strListV old)) =
      (.mk name tags true (.strListV ((goSplitComma v).map goTrimSpace)), none) ∧
    (goSplitComma "tag1, tag2 ,tag3").map goTrimSpace = ["tag1", "tag2", "tag3"] ∧
    (goSplitComma "tag1,,tag3").map goTrimSpace = ["tag1", "", "tag3"] := by
  refine ⟨?_, rfl, rfl⟩
  simp [loadField, loadFieldEnv, coerceEnvValue, htag, hne, hval, hv]

/-- Witness for C6: the two concrete inputs of the claim, with the
default `[default]` value replaced by the split-and-trimmed lists. -/
theorem strlist_coercion_witness :
    loadField noCoercers [("TAGS", "tag1, tag2 ,tag3")] "" "env"
        (.mk "Tags" [("env", "TAGS")] true (.strListV ["default"])) =
      (.mk "Tags" [("env", "TAGS")] true (.strListV ["tag1", "tag2", "tag3"]), none) ∧
    loadField noCoercers [("TAGS", "tag1,,tag3")] "" "env"
        (.mk "Tags" [("env", "TAGS")] true (.strListV ["default"])) =
      (.mk "Tags" [("env", "TAGS")] true (.strListV ["tag1", "", "tag3"]), none) := by
  have h1 := strlist_coercion noCoercers [("TAGS", "tag1, tag2 ,tag3")] "" "env"
    "Tags" "TAGS" "tag1, tag2 ,tag3" [("env", "TAGS")] ["default"]
    rfl (by decide) rfl (by decide)
  have h2 := strlist_coercion noCoercers [("TAGS", "tag1,,tag3")] "" "env"
    "Tags" "TAGS" "tag1,,tag3" [("env", "TAGS")] ["default"]
    rfl (by decide) rfl (by decide)
  exact ⟨h1.2.1 ▸ h1.1, h2.2.2 ▸ h2.1⟩

/-- C7: coercion-error propagation.  When the first failing field of
the declaration-order walk fails with some error, the mapper aborts
immediately: the fields after it are returned unmodified and the
error is the result.  When a nested record fails, the recursion
level wraps the nested error exactly once with the name of the field
descended into at that level. -/
theorem coercion_error_propagation {F : Type} (C : Coercers F) (env : Env)
    (pre tagName : String) :
    (∀ (f f2 : Field F) (fs : List (Field F)) (e : GoErr),
      loadField C env pre tagName f = (f2, some e) →
      loadFields C env pre tagName (f :: fs) = (f2 :: fs, some e)) ∧
    (∀ (name : String) (tags : List (String × String))
        (inner inner2 : List (Field F)) (e : GoErr),
      loadFields C env pre tagName inner = (inner2, some e) →
      loadField C env pre tagName (.mk name tags true (.structV inner)) =
        (.mk name tags true (.structV inner2),
         some (.wrap ("error loading sub config field " ++ name) e))) := by
  constructor
  · intro f f2 fs e h
    simp [loadFields, h]
  · intro name tags inner inner2 e h
    simp [loadField, h]

/-- Witness for C7: a record whose first field is a nested record
with a failing integer field followed by a string field.  The error
aborts the walk with the later field unmodified, wrapped once with
the nested field's name. -/
theorem coercion_error_propagation_witness :
    loadFields noCoercers [("PORT", "abc"), ("NAME", "x")] "" "env"
        [ Field.mk "Sub" [] true
            (.structV [ .mk "Port" [("env", "PORT")] true (.intV 64 0) ]),
          Field.mk "Name" [("env", "NAME")] true (.strV "d") ] =
      ([ Field.mk "Sub" [] true
           (.structV [ .mk "Port" [("env", "PORT")] true (.intV 64 0) ]),
         Field.mk "Name" [("env", "NAME")] true (.strV "d") ],
       some (.wrap "error loading sub config field Sub"
         (.base "invalid integer value for PORT"))) ∧
    loadField noCoercers [("PORT", "abc"), ("NAME", "x")] "" "env"
        (.mk "Sub" [] true
          (.structV [ .mk "Port" [("env", "PORT")] true (.intV 64 0) ])) =
      (.mk "Sub" [] true
         (.structV [ .mk "Port" [("env", "PORT")] true (.intV 64 0) ]),
       some (.wrap "error loading sub config field Sub"
         (.base "invalid integer value for PORT"))) := by
  have h := coercion_error_propagation noCoercers
    [("PORT", "abc"), ("NAME", "x")] "" "env"
  exact ⟨h.1 _ _ _ _ (h.2 "Sub" [] _ _ _ rfl),
    h.2 "Sub" [] [ .mk "Port" [("env", "PORT")] true (.intV 64 0) ]
      [ .mk "Port" [("env", "PORT")] true (.intV 64 0) ]
      (.base "invalid integer value for PORT") rfl⟩

end FulcrumCommons
